import Mathlib

/-!
Verification of the multipass instance-registry and resource-allocation core.

The data model and the daemon orchestration (launch, delete, purge, persisted
state) are modelled from the specification, since the daemon sources are not
part of this corpus (only their tests are).  The workflow provider
(`default_vm_workflow_provider.cpp`) and the client commands (`restart.cpp`,
`shell.cpp`) are translated directly from the sources.
-/

set_option autoImplicit false

/-- A network interface as persisted: `{id, mac_address, auto_mode}`. -/
structure NetworkInterface where
  id : String
  mac_address : String
  auto_mode : Bool
  deriving DecidableEq, Repr

/-- An instance record: description fields plus the soft-delete flag and state code. -/
structure InstanceRecord where
  mac_addr : String
  extra_interfaces : List NetworkInterface
  deleted : Bool
  disk_space : Nat
  mem_size : Nat
  num_cores : Nat
  ssh_username : String
  state : Nat
  deriving DecidableEq, Repr

/-- All MAC addresses held by a record: the default MAC plus the MAC of every extra interface. -/
def recordMacs (r : InstanceRecord) : List String :=
  r.mac_addr :: r.extra_interfaces.map NetworkInterface.mac_address

/-- Daemon state: the instance registry (name-keyed association list) and the
MAC-address registry (the set of currently reserved MACs). -/
structure DaemonState where
  instances : List (String × InstanceRecord)
  macs : List String
  deriving DecidableEq, Repr

/-- Errors raised by the limit checks of the workflow provider
(`WorkflowMinimumException(kind, minimum)` and `InvalidWorkflowException`). -/
inductive WorkflowError where
  | WorkflowMinimum (kind : String) (minimum : String)
  | InvalidWorkflow (msg : String)
  deriving DecidableEq, Repr

/-- Failure taxonomy of the launch path. -/
inductive McError where
  | NameAlreadyInUse (name : String)
  | DuplicateMacAddress (msg : String)
  | InsufficientDiskSpace (msg : String)
  | BackendFailure
  | ImagePrepFailure
  | WorkflowRejected (e : WorkflowError)
  deriving DecidableEq, Repr

/-- Outcome of a launch attempt: resulting daemon state, result, how many times
the backend `create_virtual_machine` was invoked, and the warnings logged. -/
structure LaunchOutcome where
  state : DaemonState
  result : Except McError Unit
  backendCreateCalls : Nat
  warnings : List String

/-- First requested MAC that collides with a reserved one, allocating the
requested MACs one at a time (so in-request duplicates also collide). -/
def firstDup : List String → List String → Option String
  | _, [] => none
  | reserved, m :: rest => if m ∈ reserved then some m else firstDup (m :: reserved) rest

/-- Lookup of a record by instance name. -/
def findRecord : List (String × InstanceRecord) → String → Option InstanceRecord
  | [], _ => none
  | p :: rest, n => if p.1 = n then some p.2 else findRecord rest n

/-- The error message when the available filesystem bytes are below the image minimum. -/
def diskBelowMinMsg (avail imin : Nat) : String :=
  "Available disk (" ++ toString avail ++ " bytes) below minimum for this image (" ++
    toString imin ++ " bytes)"

/-- The warning logged when the requested disk reservation exceeds the available bytes. -/
def overcommitMsg (req avail : Nat) : String :=
  "Reserving more disk space (" ++ toString req ++ " bytes) than available (" ++
    toString avail ++ " bytes)"

/-- Modelled from the spec: the launch/create operation of the daemon core
(`daemon.cpp` is not part of this corpus).  A request is validated (name
uniqueness, MAC uniqueness, disk space), then MACs are reserved and the
backend is invoked (`create_virtual_machine`, then image preparation); on any
backend failure every MAC reserved for the attempt is released and the
registry ends in exactly the state it had before the call.  `backendOk` and
`prepOk` stand for whether the respective external collaborator call throws. -/
def launch (s : DaemonState) (name : String) (r : InstanceRecord)
    (avail imin : Nat) (backendOk prepOk : Bool) : LaunchOutcome :=
  match findRecord s.instances name with
  | some _ => ⟨s, Except.error (McError.NameAlreadyInUse name), 0, []⟩
  | none =>
    match firstDup s.macs (recordMacs r) with
    | some m => ⟨s, Except.error (McError.DuplicateMacAddress ("Repeated MAC address " ++ m)), 0, []⟩
    | none =>
      if avail < imin then
        ⟨s, Except.error (McError.InsufficientDiskSpace (diskBelowMinMsg avail imin)), 0, []⟩
      else
        let warns := if avail < r.disk_space then [overcommitMsg r.disk_space avail] else []
        if backendOk then
          if prepOk then
            ⟨⟨(name, r) :: s.instances, recordMacs r ++ s.macs⟩, Except.ok (), 1, warns⟩
          else ⟨s, Except.error McError.ImagePrepFailure, 1, warns⟩
        else ⟨s, Except.error McError.BackendFailure, 1, warns⟩

/-- C1: when a launch attempt that passed validation fails because the backend
`create_virtual_machine` or the image preparation throws, the error is
reported with the registry in exactly its prior state (every MAC reserved for
the attempt released), so an immediately subsequent launch requesting the
same MACs succeeds. -/
theorem launch_failure_releases_macs
    (s : DaemonState) (name : String) (r : InstanceRecord) (avail imin : Nat)
    (backendOk prepOk : Bool)
    (hfail : backendOk = false ∨ prepOk = false)
    (hname : findRecord s.instances name = none)
    (hmac : firstDup s.macs (recordMacs r) = none)
    (hdisk : imin ≤ avail) :
    (launch s name r avail imin backendOk prepOk).state = s ∧
    (∃ e, (launch s name r avail imin backendOk prepOk).result = Except.error e) ∧
    (launch s name r avail imin true true).result = Except.ok () := by
  have hnl : ¬ avail < imin := Nat.not_lt.mpr hdisk
  unfold launch
  rw [hname, hmac]
  rcases hfail with hb | hp
  · subst hb
    simp [hnl]
  · subst hp
    cases backendOk <;> simp [hnl]

theorem launch_failure_releases_macs_witness :
    (launch ⟨[], []⟩ "foo" ⟨"52:54:00:73:76:28", [], false, 5368709120, 1073741824, 1, "ubuntu", 2⟩
        100 1 false true).state = ⟨[], []⟩ ∧
    (∃ e, (launch ⟨[], []⟩ "foo" ⟨"52:54:00:73:76:28", [], false, 5368709120, 1073741824, 1, "ubuntu", 2⟩
        100 1 false true).result = Except.error e) ∧
    (launch ⟨[], []⟩ "foo" ⟨"52:54:00:73:76:28", [], false, 5368709120, 1073741824, 1, "ubuntu", 2⟩
        100 1 true true).result = Except.ok () :=
  launch_failure_releases_macs ⟨[], []⟩ "foo"
    ⟨"52:54:00:73:76:28", [], false, 5368709120, 1073741824, 1, "ubuntu", 2⟩
    100 1 false true (Or.inl rfl) rfl rfl (by decide)

/-! Persisted state: raw entries and ghost filtering -/

/-- A raw entry of the persisted JSON snapshot (one per instance name). -/
structure RawEntry where
  name : String
  deleted : Bool
  disk_space : Nat
  mac_addr : String
  mem_size : Nat
  num_cores : Nat
  ssh_username : String
  state : Nat
  extra_interfaces : List NetworkInterface
  deriving DecidableEq, Repr

/-- Modelled from the spec: the ghost predicate of the daemon load path
(`daemon.cpp` is not part of this corpus) — an entry whose numeric and
mandatory fields are all zero/empty. -/
def isGhost (e : RawEntry) : Bool :=
  decide (e.num_cores = 0 ∧ e.mem_size = 0 ∧ e.disk_space = 0 ∧
    e.mac_addr = "" ∧ e.ssh_username = "" ∧ e.state = 0)

/-- The in-memory record built for a persisted entry. -/
def toRecord (e : RawEntry) : InstanceRecord :=
  ⟨e.mac_addr, e.extra_interfaces, e.deleted, e.disk_space, e.mem_size, e.num_cores,
    e.ssh_username, e.state⟩

/-- Serialization of a record back into a persisted entry. -/
def fromRecord (name : String) (r : InstanceRecord) : RawEntry :=
  ⟨name, r.deleted, r.disk_space, r.mac_addr, r.mem_size, r.num_cores,
    r.ssh_username, r.state, r.extra_interfaces⟩

/-- The MAC addresses held by a raw entry. -/
def entryMacs (e : RawEntry) : List String :=
  recordMacs (toRecord e)

/-- The entries surviving the ghost filter, in order. -/
def loadNonGhosts : List RawEntry → List RawEntry
  | [] => []
  | e :: rest => if isGhost e then loadNonGhosts rest else e :: loadNonGhosts rest

/-- All MACs of a list of entries. -/
def collectMacs : List RawEntry → List String
  | [] => []
  | e :: rest => entryMacs e ++ collectMacs rest

/-- Outcome of loading the persisted state: the rebuilt daemon state, the
errors reported, and the names for which a backend handle was instantiated. -/
structure LoadOutcome where
  state : DaemonState
  errors : List String
  backendHandles : List String

/-- Modelled from the spec: loading the persisted file drops ghost entries
silently (no error), builds the registry from the survivors, rebuilds the MAC
registry from the MACs of the survivors, and instantiates backend handles only for
the survivors (`daemon.cpp` is not part of this corpus). -/
def loadState (entries : List RawEntry) : LoadOutcome :=
  let kept := loadNonGhosts entries
  ⟨⟨kept.map (fun e => (e.name, toRecord e)), collectMacs kept⟩, [], kept.map RawEntry.name⟩

/-- Modelled from the spec: saving serializes exactly the current records. -/
def saveState (s : DaemonState) : List RawEntry :=
  s.instances.map (fun p => fromRecord p.1 p.2)

lemma mem_loadNonGhosts {e : RawEntry} {l : List RawEntry} :
    e ∈ loadNonGhosts l ↔ e ∈ l ∧ isGhost e = false := by
  induction l with
  | nil => simp [loadNonGhosts]
  | cons a t ih =>
    simp only [loadNonGhosts]
    by_cases ha : isGhost a = true
    · rw [if_pos ha, ih]
      constructor
      · rintro ⟨h1, h2⟩
        exact ⟨List.mem_cons_of_mem _ h1, h2⟩
      · rintro ⟨h1, h2⟩
        rcases List.mem_cons.mp h1 with rfl | h1t
        · rw [ha] at h2
          cases h2
        · exact ⟨h1t, h2⟩
    · have ha' : isGhost a = false := by
        revert ha
        cases isGhost a <;> simp
      rw [if_neg ha]
      constructor
      · intro h
        rcases List.mem_cons.mp h with rfl | ht
        · exact ⟨List.mem_cons_self _ _, ha'⟩
        · obtain ⟨h1, h2⟩ := ih.mp ht
          exact ⟨List.mem_cons_of_mem _ h1, h2⟩
      · rintro ⟨h1, h2⟩
        rcases List.mem_cons.mp h1 with rfl | h1t
        · exact List.mem_cons_self _ _
        · exact List.mem_cons_of_mem _ (ih.mpr ⟨h1t, h2⟩)

lemma mem_collectMacs {m : String} {l : List RawEntry} :
    m ∈ collectMacs l ↔ ∃ e, e ∈ l ∧ m ∈ entryMacs e := by
  induction l with
  | nil => simp [collectMacs]
  | cons a t ih =>
    simp only [collectMacs, List.mem_append, ih, List.mem_cons]
    constructor
    · rintro (h | ⟨e, he, hm⟩)
      · exact ⟨a, Or.inl rfl, h⟩
      · exact ⟨e, Or.inr he, hm⟩
    · rintro ⟨e, (rfl | he), hm⟩
      · exact Or.inl hm
      · exact Or.inr ⟨e, he, hm⟩

lemma firstDup_mem_of_dup (regs req : List String) (hnd : req.Nodup)
    (m : String) (hm : m ∈ req) (hr : m ∈ regs) :
    ∃ md, firstDup regs req = some md ∧ md ∈ req ∧ md ∈ regs := by
  induction req generalizing regs with
  | nil => cases hm
  | cons h t ih =>
    by_cases hh : h ∈ regs
    · exact ⟨h, by simp [firstDup, hh], List.mem_cons_self h t, hh⟩
    · have hmt : m ∈ t := by
        rcases List.mem_cons.mp hm with rfl | hmt
        · exact absurd hr hh
        · exact hmt
      have hht : h ∉ t := (List.nodup_cons.mp hnd).1
      obtain ⟨md, hfd, hmdt, hmdh⟩ :=
        ih (h :: regs) (List.nodup_cons.mp hnd).2 hmt (List.mem_cons_of_mem _ hr)
      refine ⟨md, ?_, List.mem_cons_of_mem _ hmdt, ?_⟩
      · simp [firstDup, hh, hfd]
      · rcases List.mem_cons.mp hmdh with rfl | g
        · exact absurd hmdt hht
        · exact g

/-- C2: a launch explicitly requesting a MAC address already reserved in the
registry (including MACs loaded from the persisted file at startup) fails with
`DuplicateMacAddress`; the message contains "Repeated MAC" and the literal
offending address, the MAC is never silently substituted (the reported address
is one of the requested ones), and no backend `create_virtual_machine` call is
made; further, every MAC of a non-ghost loaded entry is reserved at startup. -/
theorem launch_repeated_mac_rejected
    (s : DaemonState) (name : String) (r : InstanceRecord) (avail imin : Nat)
    (backendOk prepOk : Bool)
    (hname : findRecord s.instances name = none)
    (hnd : (recordMacs r).Nodup)
    (m : String) (hm : m ∈ recordMacs r) (hr : m ∈ s.macs) :
    (∃ md, md ∈ recordMacs r ∧ md ∈ s.macs ∧
      (launch s name r avail imin backendOk prepOk).result =
        Except.error (McError.DuplicateMacAddress ("Repeated MAC address " ++ md)) ∧
      (∃ pre post, "Repeated MAC address " ++ md = pre ++ "Repeated MAC" ++ post) ∧
      (∃ pre post, "Repeated MAC address " ++ md = pre ++ md ++ post)) ∧
    (launch s name r avail imin backendOk prepOk).backendCreateCalls = 0 ∧
    (launch s name r avail imin backendOk prepOk).state = s ∧
    (∀ entries : List RawEntry, ∀ e, e ∈ entries → isGhost e = false → m ∈ entryMacs e →
      m ∈ (loadState entries).state.macs) := by
  obtain ⟨md, hfd, hmdr, hmds⟩ := firstDup_mem_of_dup s.macs (recordMacs r) hnd m hm hr
  refine ⟨⟨md, hmdr, hmds, ?_, ?_, ?_⟩, ?_, ?_, ?_⟩
  · unfold launch
    rw [hname, hfd]
  · refine ⟨"", " address " ++ md, ?_⟩
    rw [String.empty_append, ← String.append_assoc]
    have hlit : ("Repeated MAC address " : String) = "Repeated MAC" ++ " address " := by decide
    rw [hlit]
  · exact ⟨"Repeated MAC address ", "", (String.append_empty _).symm⟩
  · unfold launch
    rw [hname, hfd]
  · unfold launch
    rw [hname, hfd]
  · intro entries e he hge hme
    show m ∈ collectMacs (loadNonGhosts entries)
    exact mem_collectMacs.mpr ⟨e, mem_loadNonGhosts.mpr ⟨he, hge⟩, hme⟩

/-- Concrete daemon state for the C2 witness: one loaded instance holding a MAC. -/
def c2State : DaemonState :=
  ⟨[("real-zebraphant", ⟨"52:54:00:bd:19:41", [], false, 5368709120, 1073741824, 1, "ubuntu", 2⟩)],
    ["52:54:00:bd:19:41"]⟩

/-- Concrete launch request for the C2 witness: fresh default MAC, but an extra
interface explicitly requesting the already-reserved MAC. -/
def c2Req : InstanceRecord :=
  ⟨"52:54:00:aa:bb:cc", [⟨"eth0", "52:54:00:bd:19:41", true⟩], false,
    5368709120, 1073741824, 1, "ubuntu", 2⟩

theorem launch_repeated_mac_rejected_witness :
    (∃ md, md ∈ recordMacs c2Req ∧ md ∈ c2State.macs ∧
      (launch c2State "vm1" c2Req 100 1 true true).result =
        Except.error (McError.DuplicateMacAddress ("Repeated MAC address " ++ md)) ∧
      (∃ pre post, "Repeated MAC address " ++ md = pre ++ "Repeated MAC" ++ post) ∧
      (∃ pre post, "Repeated MAC address " ++ md = pre ++ md ++ post)) ∧
    (launch c2State "vm1" c2Req 100 1 true true).backendCreateCalls = 0 ∧
    (launch c2State "vm1" c2Req 100 1 true true).state = c2State ∧
    (∀ entries : List RawEntry, ∀ e, e ∈ entries → isGhost e = false →
      "52:54:00:bd:19:41" ∈ entryMacs e →
      "52:54:00:bd:19:41" ∈ (loadState entries).state.macs) :=
  launch_repeated_mac_rejected c2State "vm1" c2Req 100 1 true true rfl (by decide)
    "52:54:00:bd:19:41" (by decide) (by decide)

/-! Soft delete and purge -/

/-- Mark the record of the given name as deleted, keeping it in the registry. -/
def markDeleted : List (String × InstanceRecord) → String → List (String × InstanceRecord)
  | [], _ => []
  | p :: rest, n =>
    if p.1 = n then (p.1, { p.2 with deleted := true }) :: markDeleted rest n
    else p :: markDeleted rest n

/-- Remove the record of the given name from the registry. -/
def removeName : List (String × InstanceRecord) → String → List (String × InstanceRecord)
  | [], _ => []
  | p :: rest, n => if p.1 = n then removeName rest n else p :: removeName rest n

/-- Release every MAC in `rm` from the reservation list. -/
def removeMacsOf : List String → List String → List String
  | [], _ => []
  | m :: rest, rm => if m ∈ rm then removeMacsOf rest rm else m :: removeMacsOf rest rm

/-- Modelled from the spec: `delete(name, purge?)` of the daemon core
(`daemon.cpp` is not part of this corpus).  A plain delete marks the record
`deleted`, keeping the record and its reserved MACs; with purge the record is
removed and exactly its MACs (default plus extra interfaces) are released.
An unknown name is a no-op for the state. -/
def deleteInstance (s : DaemonState) (name : String) (purge : Bool) : DaemonState :=
  match findRecord s.instances name with
  | none => s
  | some r =>
    if purge then ⟨removeName s.instances name, removeMacsOf s.macs (recordMacs r)⟩
    else ⟨markDeleted s.instances name, s.macs⟩

lemma deleteInstance_soft (s : DaemonState) (n : String) (r : InstanceRecord)
    (h : findRecord s.instances n = some r) :
    deleteInstance s n false = ⟨markDeleted s.instances n, s.macs⟩ := by
  unfold deleteInstance
  rw [h]
  rfl

lemma deleteInstance_purge (s : DaemonState) (n : String) (r : InstanceRecord)
    (h : findRecord s.instances n = some r) :
    deleteInstance s n true = ⟨removeName s.instances n, removeMacsOf s.macs (recordMacs r)⟩ := by
  unfold deleteInstance
  rw [h]
  rfl

lemma launch_result_dup (s : DaemonState) (name : String) (r : InstanceRecord)
    (avail imin : Nat) (bo po : Bool) (m : String)
    (hname : findRecord s.instances name = none)
    (hfd : firstDup s.macs (recordMacs r) = some m) :
    launch s name r avail imin bo po =
      ⟨s, Except.error (McError.DuplicateMacAddress ("Repeated MAC address " ++ m)), 0, []⟩ := by
  unfold launch
  rw [hname, hfd]

lemma launch_ok_result (s : DaemonState) (name : String) (r : InstanceRecord)
    (avail imin : Nat)
    (hname : findRecord s.instances name = none)
    (hfd : firstDup s.macs (recordMacs r) = none)
    (hdisk : imin ≤ avail) :
    (launch s name r avail imin true true).result = Except.ok () := by
  unfold launch
  rw [hname, hfd]
  simp [Nat.not_lt.mpr hdisk]

lemma findRecord_markDeleted_self (l : List (String × InstanceRecord)) (x : String) :
    findRecord (markDeleted l x) x =
      (findRecord l x).map (fun r => { r with deleted := true }) := by
  induction l with
  | nil => rfl
  | cons p rest ih =>
    simp only [markDeleted]
    by_cases hp : p.1 = x
    · rw [if_pos hp]
      simp only [findRecord]
      rw [if_pos hp, if_pos hp]
      rfl
    · rw [if_neg hp]
      simp only [findRecord]
      rw [if_neg hp, if_neg hp, ih]

lemma findRecord_markDeleted_ne (l : List (String × InstanceRecord)) (x n : String)
    (h : n ≠ x) :
    findRecord (markDeleted l x) n = findRecord l n := by
  induction l with
  | nil => rfl
  | cons p rest ih =>
    simp only [markDeleted]
    by_cases hp : p.1 = x
    · rw [if_pos hp]
      simp only [findRecord]
      have hpn : ¬ p.1 = n := by
        rw [hp]
        exact fun hh => h hh.symm
      rw [if_neg hpn, if_neg hpn, ih]
    · rw [if_neg hp]
      simp only [findRecord]
      by_cases hpn : p.1 = n
      · rw [if_pos hpn, if_pos hpn]
      · rw [if_neg hpn, if_neg hpn, ih]

lemma findRecord_removeName_ne (l : List (String × InstanceRecord)) (x n : String)
    (h : n ≠ x) :
    findRecord (removeName l x) n = findRecord l n := by
  induction l with
  | nil => rfl
  | cons p rest ih =>
    simp only [removeName]
    by_cases hp : p.1 = x
    · rw [if_pos hp, ih]
      simp only [findRecord]
      have hpn : ¬ p.1 = n := by
        rw [hp]
        exact fun hh => h hh.symm
      rw [if_neg hpn]
    · rw [if_neg hp]
      simp only [findRecord]
      by_cases hpn : p.1 = n
      · rw [if_pos hpn, if_pos hpn]
      · rw [if_neg hpn, if_neg hpn, ih]

lemma mem_removeMacsOf {a : String} {l rm : List String} :
    a ∈ removeMacsOf l rm ↔ a ∈ l ∧ a ∉ rm := by
  induction l with
  | nil => simp [removeMacsOf]
  | cons b t ih =>
    simp only [removeMacsOf]
    by_cases hb : b ∈ rm
    · rw [if_pos hb, ih]
      constructor
      · rintro ⟨h1, h2⟩
        exact ⟨List.mem_cons_of_mem _ h1, h2⟩
      · rintro ⟨h1, h2⟩
        rcases List.mem_cons.mp h1 with rfl | h1t
        · exact absurd hb h2
        · exact ⟨h1t, h2⟩
    · rw [if_neg hb]
      constructor
      · intro h
        rcases List.mem_cons.mp h with rfl | ht
        · exact ⟨List.mem_cons_self _ _, hb⟩
        · obtain ⟨h1, h2⟩ := ih.mp ht
          exact ⟨List.mem_cons_of_mem _ h1, h2⟩
      · rintro ⟨h1, h2⟩
        rcases List.mem_cons.mp h1 with rfl | h1t
        · exact List.mem_cons_self _ _
        · exact List.mem_cons_of_mem _ (ih.mpr ⟨h1t, h2⟩)

/-- C3: after a soft delete of instance X holding MAC `m`, the MAC stays
reserved and a launch requesting `m` fails with `DuplicateMacAddress`; after
deleting X with purge, `m` is released and the same request succeeds; and
purging X releases only the MACs of X — every other reserved MAC stays reserved. -/
theorem purge_releases_delete_retains
    (s : DaemonState) (x : String) (rx : InstanceRecord) (m : String)
    (name2 : String) (r2 : InstanceRecord) (avail imin : Nat)
    (hx : findRecord s.instances x = some rx)
    (hm : m ∈ recordMacs rx)
    (hmres : m ∈ s.macs)
    (hr2mac : r2.mac_addr = m)
    (hr2ext : r2.extra_interfaces = [])
    (hname2 : findRecord s.instances name2 = none)
    (hdisk : imin ≤ avail) :
    (deleteInstance s x false).macs = s.macs ∧
    (launch (deleteInstance s x false) name2 r2 avail imin true true).result =
      Except.error (McError.DuplicateMacAddress ("Repeated MAC address " ++ m)) ∧
    m ∉ (deleteInstance (deleteInstance s x false) x true).macs ∧
    (launch (deleteInstance (deleteInstance s x false) x true) name2 r2
        avail imin true true).result = Except.ok () ∧
    (∀ m2, m2 ∈ s.macs → m2 ∉ recordMacs rx →
      m2 ∈ (deleteInstance (deleteInstance s x false) x true).macs) := by
  have hne : name2 ≠ x := by
    intro hcontra
    rw [hcontra, hx] at hname2
    cases hname2
  have hsd : deleteInstance s x false = ⟨markDeleted s.instances x, s.macs⟩ :=
    deleteInstance_soft s x rx hx
  have hr2macs : recordMacs r2 = [m] := by
    simp [recordMacs, hr2mac, hr2ext]
  have hsdfind : findRecord (markDeleted s.instances x) name2 = none := by
    rw [findRecord_markDeleted_ne _ _ _ hne, hname2]
  have hsdfindx : findRecord (markDeleted s.instances x) x =
      some { rx with deleted := true } := by
    rw [findRecord_markDeleted_self, hx]
    rfl
  have hsp : deleteInstance (deleteInstance s x false) x true =
      ⟨removeName (markDeleted s.instances x) x,
        removeMacsOf s.macs (recordMacs { rx with deleted := true })⟩ := by
    rw [hsd]
    exact deleteInstance_purge _ _ _ hsdfindx
  have hrecEq : recordMacs { rx with deleted := true } = recordMacs rx := rfl
  rw [hrecEq] at hsp
  have hmnot : m ∉ removeMacsOf s.macs (recordMacs rx) := by
    intro hmem
    exact (mem_removeMacsOf.mp hmem).2 hm
  refine ⟨?_, ?_, ?_, ?_, ?_⟩
  · rw [hsd]
  · rw [hsd]
    have hfd : firstDup s.macs (recordMacs r2) = some m := by
      rw [hr2macs]
      simp [firstDup, hmres]
    exact congrArg LaunchOutcome.result
      (launch_result_dup ⟨markDeleted s.instances x, s.macs⟩ name2 r2 avail imin true true m
        hsdfind hfd)
  · rw [hsp]
    exact hmnot
  · rw [hsp]
    have hfind2 : findRecord (removeName (markDeleted s.instances x) x) name2 = none := by
      rw [findRecord_removeName_ne _ _ _ hne]
      exact hsdfind
    have hfd : firstDup (removeMacsOf s.macs (recordMacs rx)) (recordMacs r2) = none := by
      rw [hr2macs]
      simp [firstDup, hmnot]
    exact launch_ok_result
      ⟨removeName (markDeleted s.instances x) x, removeMacsOf s.macs (recordMacs rx)⟩
      name2 r2 avail imin hfind2 hfd hdisk
  · intro m2 h1 h2
    rw [hsp]
    exact mem_removeMacsOf.mpr ⟨h1, h2⟩

/-- Concrete state for the C3 witness: two live instances, each holding one MAC. -/
def c3State : DaemonState :=
  ⟨[("vm1", ⟨"52:54:00:73:76:28", [], false, 5368709120, 1073741824, 1, "ubuntu", 2⟩),
    ("vm2", ⟨"52:54:00:bd:19:41", [], false, 5368709120, 1073741824, 1, "ubuntu", 2⟩)],
    ["52:54:00:73:76:28", "52:54:00:bd:19:41"]⟩

/-- Record of instance vm1 in `c3State`. -/
def c3Rx : InstanceRecord :=
  ⟨"52:54:00:73:76:28", [], false, 5368709120, 1073741824, 1, "ubuntu", 2⟩

/-- New launch request for the C3 witness, explicitly requesting the MAC of vm1. -/
def c3Req : InstanceRecord :=
  ⟨"52:54:00:73:76:28", [], false, 5368709120, 1073741824, 1, "ubuntu", 2⟩

theorem purge_releases_delete_retains_witness :
    (deleteInstance c3State "vm1" false).macs = c3State.macs ∧
    (launch (deleteInstance c3State "vm1" false) "vm9" c3Req 100 1 true true).result =
      Except.error (McError.DuplicateMacAddress ("Repeated MAC address " ++ "52:54:00:73:76:28")) ∧
    "52:54:00:73:76:28" ∉ (deleteInstance (deleteInstance c3State "vm1" false) "vm1" true).macs ∧
    (launch (deleteInstance (deleteInstance c3State "vm1" false) "vm1" true) "vm9" c3Req
        100 1 true true).result = Except.ok () ∧
    (∀ m2, m2 ∈ c3State.macs → m2 ∉ recordMacs c3Rx →
      m2 ∈ (deleteInstance (deleteInstance c3State "vm1" false) "vm1" true).macs) :=
  purge_releases_delete_retains c3State "vm1" c3Rx "52:54:00:73:76:28" "vm9" c3Req 100 1
    rfl (by decide) (by decide) rfl rfl rfl (by decide)

/-! Ghost transparency of load and save -/

lemma fromRecord_toRecord (e : RawEntry) : fromRecord e.name (toRecord e) = e := by
  cases e
  rfl

lemma save_of_loaded_map (l : List RawEntry) :
    (l.map (fun e => (e.name, toRecord e))).map (fun p => fromRecord p.1 p.2) = l := by
  induction l with
  | nil => rfl
  | cons e t ih =>
    simp only [List.map_cons]
    rw [ih, fromRecord_toRecord]

/-- C4: loading the persisted file reports no error and drops exactly the
ghost entries: the registry holds the non-ghost entries and only them, no
backend handle is instantiated for a ghost, and a subsequent save rewrites
the file with the non-ghost entries only — never reintroducing a ghost. -/
theorem load_skips_ghosts (entries : List RawEntry) :
    (loadState entries).errors = [] ∧
    (∀ e, e ∈ entries → isGhost e = false →
      (e.name, toRecord e) ∈ (loadState entries).state.instances) ∧
    (∀ p, p ∈ (loadState entries).state.instances →
      ∃ e, e ∈ entries ∧ isGhost e = false ∧ p = (e.name, toRecord e)) ∧
    ((entries.map RawEntry.name).Nodup →
      ∀ e, e ∈ entries → isGhost e = true → e.name ∉ (loadState entries).backendHandles) ∧
    saveState (loadState entries).state = loadNonGhosts entries ∧
    (∀ e2, e2 ∈ saveState (loadState entries).state → isGhost e2 = false) := by
  refine ⟨rfl, ?_, ?_, ?_, ?_, ?_⟩
  · intro e he hg
    exact List.mem_map_of_mem _ (mem_loadNonGhosts.mpr ⟨he, hg⟩)
  · intro p hp
    obtain ⟨e, he, rfl⟩ := List.mem_map.mp hp
    obtain ⟨h1, h2⟩ := mem_loadNonGhosts.mp he
    exact ⟨e, h1, h2, rfl⟩
  · intro hnd e he hg hmem
    obtain ⟨e2, he2, hnameEq⟩ := List.mem_map.mp hmem
    obtain ⟨he2e, hg2⟩ := mem_loadNonGhosts.mp he2
    have : e2 = e := List.inj_on_of_nodup_map hnd he2e he hnameEq
    rw [this, hg] at hg2
    cases hg2
  · exact save_of_loaded_map (loadNonGhosts entries)
  · intro e2 hmem
    have hsave : saveState (loadState entries).state = loadNonGhosts entries :=
      save_of_loaded_map (loadNonGhosts entries)
    rw [hsave] at hmem
    exact (mem_loadNonGhosts.mp hmem).2

/-- Ghost entry of the C4 witness, shaped after the `ghost_template` of the tests. -/
def c4Ghost : RawEntry :=
  ⟨"ghost1", false, 0, "", 0, 0, "", 0, []⟩

/-- Valid entry of the C4 witness, shaped after the `valid_template` of the tests. -/
def c4Valid : RawEntry :=
  ⟨"valid1", false, 3232323232, "ab:cd:ef:12:34:56", 2323232323, 4, "ubuntu", 1, []⟩

theorem load_skips_ghosts_witness :
    (loadState [c4Ghost, c4Valid]).errors = [] ∧
    (c4Valid.name, toRecord c4Valid) ∈ (loadState [c4Ghost, c4Valid]).state.instances ∧
    c4Ghost.name ∉ (loadState [c4Ghost, c4Valid]).backendHandles ∧
    saveState (loadState [c4Ghost, c4Valid]).state = [c4Valid] := by
  have h := load_skips_ghosts [c4Ghost, c4Valid]
  refine ⟨h.1, ?_, ?_, ?_⟩
  · exact h.2.1 c4Valid (by decide) (by decide)
  · exact h.2.2.2.1 (by decide) c4Ghost (by decide) (by decide)
  · rw [h.2.2.2.2.1]
    decide

/-! Disk space validation -/

/-- C6: when the available filesystem bytes are strictly below the minimum
of the image, the launch fails with `InsufficientDiskSpace` (available below
minimum for this image) and no backend create call is made; when available is
at least the image minimum but the requested disk reservation exceeds it,
the launch succeeds and only the overcommit warning is logged. -/
theorem disk_space_checks
    (s : DaemonState) (name : String) (r : InstanceRecord) (avail imin : Nat)
    (backendOk prepOk : Bool)
    (hname : findRecord s.instances name = none)
    (hmac : firstDup s.macs (recordMacs r) = none) :
    (avail < imin →
      (launch s name r avail imin backendOk prepOk).result =
        Except.error (McError.InsufficientDiskSpace (diskBelowMinMsg avail imin)) ∧
      (launch s name r avail imin backendOk prepOk).backendCreateCalls = 0 ∧
      (launch s name r avail imin backendOk prepOk).state = s) ∧
    (imin ≤ avail → avail < r.disk_space →
      (launch s name r avail imin true true).result = Except.ok () ∧
      (launch s name r avail imin true true).warnings = [overcommitMsg r.disk_space avail] ∧
      (launch s name r avail imin true true).backendCreateCalls = 1) := by
  constructor
  · intro hlt
    unfold launch
    rw [hname, hmac]
    simp [hlt]
  · intro hge hover
    unfold launch
    rw [hname, hmac]
    simp [Nat.not_lt.mpr hge, hover]

/-- Launch request of the C6 witness: default disk reservation of 5G. -/
def c6Req : InstanceRecord :=
  ⟨"52:54:00:73:76:28", [], false, 5368709120, 1073741824, 1, "ubuntu", 2⟩

theorem disk_space_checks_witness :
    ((launch ⟨[], []⟩ "foo" c6Req 0 1 true true).result =
        Except.error (McError.InsufficientDiskSpace (diskBelowMinMsg 0 1)) ∧
      (launch ⟨[], []⟩ "foo" c6Req 0 1 true true).backendCreateCalls = 0 ∧
      (launch ⟨[], []⟩ "foo" c6Req 0 1 true true).state = ⟨[], []⟩) ∧
    ((launch ⟨[], []⟩ "foo" c6Req 10 1 true true).result = Except.ok () ∧
      (launch ⟨[], []⟩ "foo" c6Req 10 1 true true).warnings =
        [overcommitMsg c6Req.disk_space 10] ∧
      (launch ⟨[], []⟩ "foo" c6Req 10 1 true true).backendCreateCalls = 1) :=
  ⟨(disk_space_checks ⟨[], []⟩ "foo" c6Req 0 1 true true rfl rfl).1 (by decide),
    (disk_space_checks ⟨[], []⟩ "foo" c6Req 10 1 true true rfl rfl).2 (by decide) (by decide)⟩

/-! Workflow minimum resource limits, translated from
`DefaultVMWorkflowProvider::fetch_workflow_for` (limits section) -/

/-- The resource fields of a `VirtualMachineDescription` subject to workflow
limits; zero means "unset, fill from the workflow minimum". -/
structure VMDesc where
  num_cores : Nat
  mem_size : Nat
  disk_space : Nat
  deriving DecidableEq, Repr

/-- The `min-cpu` check of `fetch_workflow_for`: an unset (zero) core count is
filled with the minimum; a set value strictly below it raises
`WorkflowMinimumException("Number of CPUs", min)`. -/
def cpuStep (minCpu : Option Nat) (d : VMDesc) : Except WorkflowError VMDesc :=
  match minCpu with
  | none => Except.ok d
  | some c =>
    if d.num_cores = 0 then Except.ok { d with num_cores := c }
    else if d.num_cores < c then
      Except.error (WorkflowError.WorkflowMinimum "Number of CPUs" (toString c))
    else Except.ok d

/-- The `min-mem` check of `fetch_workflow_for`; the minimum is the pair of
its YAML string and its parsed byte value. -/
def memStep (minMem : Option (String × Nat)) (d : VMDesc) : Except WorkflowError VMDesc :=
  match minMem with
  | none => Except.ok d
  | some mm =>
    if d.mem_size = 0 then Except.ok { d with mem_size := mm.2 }
    else if d.mem_size < mm.2 then
      Except.error (WorkflowError.WorkflowMinimum "Memory size" mm.1)
    else Except.ok d

/-- The `min-disk` check of `fetch_workflow_for`; the minimum is the pair of
its YAML string and its parsed byte value. -/
def diskStep (minDisk : Option (String × Nat)) (d : VMDesc) : Except WorkflowError VMDesc :=
  match minDisk with
  | none => Except.ok d
  | some md =>
    if d.disk_space = 0 then Except.ok { d with disk_space := md.2 }
    else if d.disk_space < md.2 then
      Except.error (WorkflowError.WorkflowMinimum "Disk space" md.1)
    else Except.ok d

/-- The limits section of `fetch_workflow_for`: cpu, then memory, then disk;
a thrown exception aborts the remaining checks. -/
def checkLimits (minCpu : Option Nat) (minMem minDisk : Option (String × Nat))
    (d : VMDesc) : Except WorkflowError VMDesc :=
  (cpuStep minCpu d).bind (fun d1 => (memStep minMem d1).bind (fun d2 => diskStep minDisk d2))

/-- Modelled from the spec: the daemon runs the workflow limit checks before
reserving resources or calling the backend (`daemon.cpp` is not part of this
corpus); a workflow rejection propagates with zero backend calls and an
unchanged registry, otherwise the launch proceeds with the filled description. -/
def launchWithWorkflow (s : DaemonState) (name : String) (r : InstanceRecord)
    (minCpu : Option Nat) (minMem minDisk : Option (String × Nat))
    (avail imin : Nat) (backendOk prepOk : Bool) : LaunchOutcome :=
  match checkLimits minCpu minMem minDisk ⟨r.num_cores, r.mem_size, r.disk_space⟩ with
  | Except.error e => ⟨s, Except.error (McError.WorkflowRejected e), 0, []⟩
  | Except.ok d => launch s name
      { r with num_cores := d.num_cores, mem_size := d.mem_size, disk_space := d.disk_space }
      avail imin backendOk prepOk

/-- C5: against the minimums of a workflow, each unset (zero) field is filled with
the minimum; each set field strictly below the minimum causes a rejection
naming the resource kind and the minimum, with zero backend calls and an
unchanged registry; and each field at or above the minimum is left unchanged,
the launch proceeding with the (possibly filled) description. -/
theorem workflow_minimum_limits (c : Nat) (ms ds : String × Nat) (d : VMDesc) :
    (d.num_cores = 0 → cpuStep (some c) d = Except.ok { d with num_cores := c }) ∧
    (d.num_cores ≠ 0 → d.num_cores < c →
      cpuStep (some c) d =
        Except.error (WorkflowError.WorkflowMinimum "Number of CPUs" (toString c))) ∧
    (d.num_cores ≠ 0 → c ≤ d.num_cores → cpuStep (some c) d = Except.ok d) ∧
    (d.mem_size = 0 → memStep (some ms) d = Except.ok { d with mem_size := ms.2 }) ∧
    (d.mem_size ≠ 0 → d.mem_size < ms.2 →
      memStep (some ms) d = Except.error (WorkflowError.WorkflowMinimum "Memory size" ms.1)) ∧
    (d.mem_size ≠ 0 → ms.2 ≤ d.mem_size → memStep (some ms) d = Except.ok d) ∧
    (d.disk_space = 0 → diskStep (some ds) d = Except.ok { d with disk_space := ds.2 }) ∧
    (d.disk_space ≠ 0 → d.disk_space < ds.2 →
      diskStep (some ds) d = Except.error (WorkflowError.WorkflowMinimum "Disk space" ds.1)) ∧
    (d.disk_space ≠ 0 → ds.2 ≤ d.disk_space → diskStep (some ds) d = Except.ok d) ∧
    (∀ (s : DaemonState) (name : String) (r : InstanceRecord) (minCpu : Option Nat)
        (minMem minDisk : Option (String × Nat)) (avail imin : Nat) (bo po : Bool)
        (e : WorkflowError),
      checkLimits minCpu minMem minDisk ⟨r.num_cores, r.mem_size, r.disk_space⟩ =
        Except.error e →
      (launchWithWorkflow s name r minCpu minMem minDisk avail imin bo po).backendCreateCalls
          = 0 ∧
      (launchWithWorkflow s name r minCpu minMem minDisk avail imin bo po).state = s ∧
      (launchWithWorkflow s name r minCpu minMem minDisk avail imin bo po).result =
        Except.error (McError.WorkflowRejected e)) ∧
    (∀ (s : DaemonState) (name : String) (r : InstanceRecord) (minCpu : Option Nat)
        (minMem minDisk : Option (String × Nat)) (avail imin : Nat) (bo po : Bool)
        (d2 : VMDesc),
      checkLimits minCpu minMem minDisk ⟨r.num_cores, r.mem_size, r.disk_space⟩ =
        Except.ok d2 →
      launchWithWorkflow s name r minCpu minMem minDisk avail imin bo po =
        launch s name
          { r with num_cores := d2.num_cores, mem_size := d2.mem_size, disk_space := d2.disk_space }
          avail imin bo po) := by
  refine ⟨?_, ?_, ?_, ?_, ?_, ?_, ?_, ?_, ?_, ?_, ?_⟩
  · intro h
    simp only [cpuStep]
    rw [if_pos h]
  · intro h0 hlt
    simp only [cpuStep]
    rw [if_neg h0, if_pos hlt]
  · intro h0 hge
    simp only [cpuStep]
    rw [if_neg h0, if_neg (Nat.not_lt.mpr hge)]
  · intro h
    simp only [memStep]
    rw [if_pos h]
  · intro h0 hlt
    simp only [memStep]
    rw [if_neg h0, if_pos hlt]
  · intro h0 hge
    simp only [memStep]
    rw [if_neg h0, if_neg (Nat.not_lt.mpr hge)]
  · intro h
    simp only [diskStep]
    rw [if_pos h]
  · intro h0 hlt
    simp only [diskStep]
    rw [if_neg h0, if_pos hlt]
  · intro h0 hge
    simp only [diskStep]
    rw [if_neg h0, if_neg (Nat.not_lt.mpr hge)]
  · intro s name r minCpu minMem minDisk avail imin bo po e hcheck
    unfold launchWithWorkflow
    rw [hcheck]
    exact ⟨rfl, rfl, rfl⟩
  · intro s name r minCpu minMem minDisk avail imin bo po d2 hcheck
    unfold launchWithWorkflow
    rw [hcheck]

theorem workflow_minimum_limits_witness :
    cpuStep (some 4) ⟨0, 4294967296, 26843545600⟩ =
      Except.ok ⟨4, 4294967296, 26843545600⟩ ∧
    memStep (some ("4G", 4294967296)) ⟨4, 123, 26843545600⟩ =
      Except.error (WorkflowError.WorkflowMinimum "Memory size" "4G") ∧
    diskStep (some ("25G", 26843545600)) ⟨4, 4294967296, 26843545600⟩ =
      Except.ok ⟨4, 4294967296, 26843545600⟩ ∧
    (launchWithWorkflow ⟨[], []⟩ "foo" ⟨"52:54:00:73:76:28", [], false, 26843545600, 123, 4, "ubuntu", 2⟩
      (some 4) (some ("4G", 4294967296)) (some ("25G", 26843545600)) 100 1 true
      true).backendCreateCalls = 0 :=
  ⟨(workflow_minimum_limits 4 ("4G", 4294967296) ("25G", 26843545600)
      ⟨0, 4294967296, 26843545600⟩).1 rfl,
    (workflow_minimum_limits 4 ("4G", 4294967296) ("25G", 26843545600)
      ⟨4, 123, 26843545600⟩).2.2.2.2.1 (by decide) (by decide),
    (workflow_minimum_limits 4 ("4G", 4294967296) ("25G", 26843545600)
      ⟨4, 4294967296, 26843545600⟩).2.2.2.2.2.2.2.2.1 (by decide) (by decide),
    ((workflow_minimum_limits 4 ("4G", 4294967296) ("25G", 26843545600)
        ⟨4, 4294967296, 26843545600⟩).2.2.2.2.2.2.2.2.2.1 ⟨[], []⟩ "foo"
      ⟨"52:54:00:73:76:28", [], false, 26843545600, 123, 4, "ubuntu", 2⟩
      (some 4) (some ("4G", 4294967296)) (some ("25G", 26843545600)) 100 1 true true
      (WorkflowError.WorkflowMinimum "Memory size" "4G") rfl).1⟩

/-! Workflow provider cache, translated from
`DefaultVMWorkflowProvider::update_workflows` / `fetch_workflow_for` -/

/-- Provider state: the cached workflow map and the time of the last
successful update. -/
structure ProviderState where
  workflow_map : List (String × String)
  last_update : Nat
  deriving DecidableEq, Repr

/-- Outcome of `update_workflows`: new provider state, logged messages, and
whether a download was attempted. -/
structure UpdateOutcome where
  state : ProviderState
  logs : List String
  attempted : Bool
  deriving DecidableEq, Repr

/-- Errors of the workflow lookup: the requested name is not in the cache. -/
inductive FetchError where
  | nameNotFound (name : String)
  deriving DecidableEq, Repr

/-- Outcome of a workflow fetch: provider state, logs, download attempted,
and the lookup result. -/
structure FetchOutcome where
  state : ProviderState
  logs : List String
  attempted : Bool
  result : Except FetchError String

/-- The update_workflows method: re-download only once the TTL has elapsed since the
last successful update; a failed download is logged and leaves the cached map
and `last_update` unchanged. -/
def update_workflows (s : ProviderState) (now ttl : Nat)
    (download : Except String (List (String × String))) : UpdateOutcome :=
  if ttl < now - s.last_update then
    match download with
    | Except.ok m => ⟨⟨m, now⟩, [], true⟩
    | Except.error e => ⟨s, ["Error fetching workflows: " ++ e], true⟩
  else ⟨s, [], false⟩

/-- Lookup in the cached workflow map (`workflow_map.at`). -/
def lookupStr : List (String × String) → String → Option String
  | [], _ => none
  | p :: rest, n => if p.1 = n then some p.2 else lookupStr rest n

/-- The cache-facing part of `fetch_workflow_for`: update the cache, then
resolve the requested workflow name in it; a missing name is the only hard
failure. -/
def fetch_workflow_config (s : ProviderState) (now ttl : Nat)
    (download : Except String (List (String × String))) (name : String) : FetchOutcome :=
  let u := update_workflows s now ttl download
  match lookupStr u.state.workflow_map name with
  | some cfg => ⟨u.state, u.logs, u.attempted, Except.ok cfg⟩
  | none => ⟨u.state, u.logs, u.attempted, Except.error (FetchError.nameNotFound name)⟩

lemma update_workflows_not_elapsed (s : ProviderState) (now ttl : Nat)
    (download : Except String (List (String × String)))
    (h : ¬ ttl < now - s.last_update) :
    update_workflows s now ttl download = ⟨s, [], false⟩ := by
  unfold update_workflows
  rw [if_neg h]

lemma update_workflows_err (s : ProviderState) (now ttl : Nat)
    (download : Except String (List (String × String))) (e : String)
    (h : ttl < now - s.last_update) (hd : download = Except.error e) :
    update_workflows s now ttl download = ⟨s, ["Error fetching workflows: " ++ e], true⟩ := by
  unfold update_workflows
  rw [if_pos h, hd]

lemma update_workflows_attempted (s : ProviderState) (now ttl : Nat)
    (download : Except String (List (String × String))) :
    (update_workflows s now ttl download).attempted = true ↔ ttl < now - s.last_update := by
  unfold update_workflows
  by_cases h : ttl < now - s.last_update
  · rw [if_pos h]
    cases download <;> simp [h]
  · rw [if_neg h]
    simp [h]

lemma fetch_workflow_config_projections (s : ProviderState) (now ttl : Nat)
    (download : Except String (List (String × String))) (name : String) :
    (fetch_workflow_config s now ttl download name).state =
      (update_workflows s now ttl download).state ∧
    (fetch_workflow_config s now ttl download name).logs =
      (update_workflows s now ttl download).logs ∧
    (fetch_workflow_config s now ttl download name).attempted =
      (update_workflows s now ttl download).attempted := by
  simp only [fetch_workflow_config]
  split <;> exact ⟨rfl, rfl, rfl⟩

lemma fetch_workflow_config_found (s : ProviderState) (now ttl : Nat)
    (download : Except String (List (String × String))) (name cfg : String)
    (h : lookupStr (update_workflows s now ttl download).state.workflow_map name = some cfg) :
    (fetch_workflow_config s now ttl download name).result = Except.ok cfg := by
  simp only [fetch_workflow_config]
  rw [h]

lemma fetch_workflow_config_missing (s : ProviderState) (now ttl : Nat)
    (download : Except String (List (String × String))) (name : String)
    (h : lookupStr (update_workflows s now ttl download).state.workflow_map name = none) :
    (fetch_workflow_config s now ttl download name).result =
      Except.error (FetchError.nameNotFound name) := by
  simp only [fetch_workflow_config]
  rw [h]

/-- C7: the remote archive is re-downloaded only when the TTL has elapsed
since the last successful update; on a download failure the error is logged
and the cached map (and `last_update`) is kept unchanged, the call itself not
failing; and the fetch hard-fails exactly when the requested workflow name is
absent from the cached map, with a name-not-found error. -/
theorem workflow_cache_ttl (s : ProviderState) (now ttl : Nat)
    (download : Except String (List (String × String))) (name : String) :
    ((fetch_workflow_config s now ttl download name).attempted = true ↔
      ttl < now - s.last_update) ∧
    (∀ e, download = Except.error e → ttl < now - s.last_update →
      (fetch_workflow_config s now ttl download name).state.workflow_map = s.workflow_map ∧
      (fetch_workflow_config s now ttl download name).state.last_update = s.last_update ∧
      (fetch_workflow_config s now ttl download name).logs =
        ["Error fetching workflows: " ++ e]) ∧
    (¬ ttl < now - s.last_update →
      (fetch_workflow_config s now ttl download name).state = s ∧
      (fetch_workflow_config s now ttl download name).logs = []) ∧
    ((∃ err, (fetch_workflow_config s now ttl download name).result = Except.error err) ↔
      lookupStr (fetch_workflow_config s now ttl download name).state.workflow_map name =
        none) ∧
    (∀ err, (fetch_workflow_config s now ttl download name).result = Except.error err →
      err = FetchError.nameNotFound name) := by
  obtain ⟨hst, hlg, hat⟩ := fetch_workflow_config_projections s now ttl download name
  refine ⟨?_, ?_, ?_, ?_, ?_⟩
  · rw [hat]
    exact update_workflows_attempted s now ttl download
  · intro e hd helapsed
    rw [hst, hlg, update_workflows_err s now ttl download e helapsed hd]
    exact ⟨rfl, rfl, rfl⟩
  · intro hn
    rw [hst, hlg, update_workflows_not_elapsed s now ttl download hn]
    exact ⟨rfl, rfl⟩
  · rw [hst]
    constructor
    · rintro ⟨err, herr⟩
      cases hlk : lookupStr (update_workflows s now ttl download).state.workflow_map name with
      | none => rfl
      | some cfg =>
        rw [fetch_workflow_config_found s now ttl download name cfg hlk] at herr
        cases herr
    · intro hlk
      exact ⟨FetchError.nameNotFound name,
        fetch_workflow_config_missing s now ttl download name hlk⟩
  · intro err herr
    cases hlk : lookupStr (update_workflows s now ttl download).state.workflow_map name with
    | none =>
      rw [fetch_workflow_config_missing s now ttl download name hlk] at herr
      cases herr
      rfl
    | some cfg =>
      rw [fetch_workflow_config_found s now ttl download name cfg hlk] at herr
      cases herr

theorem workflow_cache_ttl_witness :
    ((fetch_workflow_config ⟨[("anbox", "cfg")], 0⟩ 10 5 (Except.error "timeout")
        "anbox").attempted = true ↔ 5 < 10 - (0 : Nat)) ∧
    ((fetch_workflow_config ⟨[("anbox", "cfg")], 0⟩ 10 5 (Except.error "timeout")
        "anbox").state.workflow_map = [("anbox", "cfg")] ∧
      (fetch_workflow_config ⟨[("anbox", "cfg")], 0⟩ 10 5 (Except.error "timeout")
        "anbox").state.last_update = 0 ∧
      (fetch_workflow_config ⟨[("anbox", "cfg")], 0⟩ 10 5 (Except.error "timeout")
        "anbox").logs = ["Error fetching workflows: " ++ "timeout"]) :=
  ⟨(workflow_cache_ttl ⟨[("anbox", "cfg")], 0⟩ 10 5 (Except.error "timeout") "anbox").1,
    (workflow_cache_ttl ⟨[("anbox", "cfg")], 0⟩ 10 5 (Except.error "timeout") "anbox").2.1
      "timeout" rfl (by decide)⟩

/-! Restart client command, translated from `cmd::Restart::run` -/

/-- Effects visible from the run path of the restart client. -/
inductive ClientEffect where
  | StartSpinner (msg : String)
  | StopSpinner
  | PrintErr (msg : String)
  | RaiseSignal (sig : Nat)
  | StartTimer
  | SendRpc (method : String)
  | SendRpcCancel (method : String)
  deriving DecidableEq, Repr

/-- POSIX SIGINT. -/
def sigint : Nat := 2

/-- The timer callback installed by `cmd::Restart::run` when `--timeout` is
set: stop the spinner, print the timeout message, raise SIGINT — all in the
client process. -/
def restartTimerCallback : List ClientEffect :=
  [ClientEffect.StopSpinner,
    ClientEffect.PrintErr "Timed out waiting for instance to restart.",
    ClientEffect.RaiseSignal sigint]

/-- The run path of the restart command: its main effects and the timer
callback armed when a timeout is given. -/
structure RestartRunModel where
  effects : List ClientEffect
  timerCallback : Option (List ClientEffect)
  deriving DecidableEq, Repr

/-- The run method of the restart command: on successful parse, start the spinner, arm the
timer when `--timeout` is set, and dispatch the restart RPC. -/
def restartRun (parseOk timeoutSet : Bool) : RestartRunModel :=
  if parseOk then
    ⟨[ClientEffect.StartSpinner "Restarting "] ++
        (if timeoutSet then [ClientEffect.StartTimer] else []) ++
        [ClientEffect.SendRpc "restart"],
      if timeoutSet then some restartTimerCallback else none⟩
  else ⟨[], none⟩

/-- Whether any effect in the list sends a cancel/abort request to the daemon. -/
def sendsCancelRpc (l : List ClientEffect) : Bool :=
  l.any fun e =>
    match e with
    | ClientEffect.SendRpcCancel _ => true
    | _ => false

/-- Whether any effect in the list talks to the daemon at all. -/
def sendsAnyRpc (l : List ClientEffect) : Bool :=
  l.any fun e =>
    match e with
    | ClientEffect.SendRpc _ => true
    | ClientEffect.SendRpcCancel _ => true
    | _ => false

/-- C8: a restart `--timeout` that elapses is handled entirely client-side —
the armed timer callback stops the spinner, prints the timeout message and
raises SIGINT in the client process, sends nothing to the daemon (in
particular no abort/cancel), and the dispatched restart RPC is never
cancelled by any client effect; without `--timeout` no timer is armed. -/
theorem restart_timeout_client_side :
    (restartRun true true).timerCallback = some restartTimerCallback ∧
    (restartRun true false).timerCallback = none ∧
    restartTimerCallback =
      [ClientEffect.StopSpinner,
        ClientEffect.PrintErr "Timed out waiting for instance to restart.",
        ClientEffect.RaiseSignal sigint] ∧
    sendsAnyRpc restartTimerCallback = false ∧
    sendsCancelRpc (restartRun true true).effects = false ∧
    sendsCancelRpc (restartRun true false).effects = false ∧
    ClientEffect.SendRpc "restart" ∈ (restartRun true true).effects := by
  refine ⟨rfl, rfl, rfl, rfl, rfl, rfl, ?_⟩
  decide

/-! Shell client failure handling, translated from `cmd::Shell::run` -/

/-- gRPC status code NOT_FOUND. -/
def grpcNotFound : Nat := 5

/-- gRPC status code ABORTED. -/
def grpcAborted : Nat := 10

/-- What the shell failure handler decides to do. -/
inductive FailureAction where
  | RetryCmd (args : List String)
  | StandardHandler
  deriving DecidableEq, Repr

/-- The `--timeout` arguments appended to a retry command when set. -/
def timeoutArgs : Option String → List String
  | some t => ["--timeout", t]
  | none => []

/-- The `on_failure` handler of `cmd::Shell::run`: NOT_FOUND on the primary
instance retries via `multipass launch --name <petenv>`; ABORTED retries via
`multipass start <name>`; anything else goes to the standard failure handler
(before any timeout is appended). -/
def shellOnFailure (code : Nat) (inst petenv : String) (timeout : Option String) :
    FailureAction :=
  if code = grpcNotFound ∧ inst = petenv then
    FailureAction.RetryCmd (["multipass", "launch", "--name", petenv] ++ timeoutArgs timeout)
  else if code = grpcAborted then
    FailureAction.RetryCmd (["multipass", "start", inst] ++ timeoutArgs timeout)
  else FailureAction.StandardHandler

/-- Client return codes. -/
inductive RC where
  | Ok
  | CommandLineError
  | CommandFail
  | Retry
  deriving DecidableEq, Repr

/-- The dispatch loop of `cmd::Shell::run`: re-dispatch while the handler
returns Retry; `f i` is the outcome of the i-th dispatch, `fuel` bounds the
iterations. -/
def shellDispatchLoop (f : Nat → RC) : Nat → Nat → RC
  | i, 0 => f i
  | i, fuel + 1 => if f i = RC.Retry then shellDispatchLoop f (i + 1) fuel else f i

lemma shellDispatchLoop_first (f : Nat → RC) :
    ∀ (k j fuel : Nat), (∀ i, i < k → f (j + i) = RC.Retry) → f (j + k) ≠ RC.Retry →
      k ≤ fuel → shellDispatchLoop f j fuel = f (j + k) := by
  intro k
  induction k with
  | zero =>
    intro j fuel _ hk _
    cases fuel with
    | zero => rfl
    | succ n =>
      show (if f j = RC.Retry then shellDispatchLoop f (j + 1) n else f j) = f (j + 0)
      rw [if_neg (by simpa using hk)]
      rfl
  | succ k ih =>
    intro j fuel hlt hk hfuel
    cases fuel with
    | zero => exact absurd hfuel (by omega)
    | succ n =>
      have h0 : f j = RC.Retry := hlt 0 (by omega)
      show (if f j = RC.Retry then shellDispatchLoop f (j + 1) n else f j) = f (j + (k + 1))
      rw [if_pos h0]
      have h2 : ∀ i, i < k → f ((j + 1) + i) = RC.Retry := by
        intro i hi
        have hx := hlt (i + 1) (by omega)
        have harith : j + (i + 1) = (j + 1) + i := by omega
        rwa [harith] at hx
      have h3 : f ((j + 1) + k) ≠ RC.Retry := by
        have harith : j + (k + 1) = (j + 1) + k := by omega
        rwa [harith] at hk
      rw [ih (j + 1) n h2 h3 (by omega)]
      congr 1
      omega

/-- C9: the shell on-failure handler retries `multipass launch --name
<petenv>` exactly when the status is NOT_FOUND and the target is the primary
instance, retries `multipass start <name>` on ABORTED, propagates `--timeout`
into both retries when set, falls back to the standard failure handler in
every other case, and the dispatch loop repeats while the handler returns
Retry, ending at the first non-Retry dispatch. -/
theorem shell_failure_retry (code : Nat) (inst petenv : String) (timeout : Option String) :
    (code = grpcNotFound → inst = petenv →
      shellOnFailure code inst petenv timeout =
        FailureAction.RetryCmd
          (["multipass", "launch", "--name", petenv] ++ timeoutArgs timeout)) ∧
    (code = grpcAborted →
      shellOnFailure code inst petenv timeout =
        FailureAction.RetryCmd (["multipass", "start", inst] ++ timeoutArgs timeout)) ∧
    ((code ≠ grpcNotFound ∨ inst ≠ petenv) → code ≠ grpcAborted →
      shellOnFailure code inst petenv timeout = FailureAction.StandardHandler) ∧
    (∀ t, timeoutArgs (some t) = ["--timeout", t]) ∧
    timeoutArgs none = [] ∧
    (∀ (f : Nat → RC) (k fuel : Nat),
      (∀ i, i < k → f i = RC.Retry) → f k ≠ RC.Retry → k ≤ fuel →
      shellDispatchLoop f 0 fuel = f k) := by
  refine ⟨?_, ?_, ?_, fun t => rfl, rfl, ?_⟩
  · intro hc hi
    unfold shellOnFailure
    rw [if_pos ⟨hc, hi⟩]
  · intro hc
    unfold shellOnFailure
    have hnot : ¬ (code = grpcNotFound ∧ inst = petenv) := by
      rintro ⟨h1, _⟩
      rw [hc] at h1
      exact absurd h1 (by decide)
    rw [if_neg hnot, if_pos hc]
  · intro hother habort
    unfold shellOnFailure
    have hnot : ¬ (code = grpcNotFound ∧ inst = petenv) := by
      rintro ⟨h1, h2⟩
      rcases hother with h | h
      · exact h h1
      · exact h h2
    rw [if_neg hnot, if_neg habort]
  · intro f k fuel h1 h2 h3
    have := shellDispatchLoop_first f k 0 fuel (by simpa using h1) (by simpa using h2) h3
    simpa using this

theorem shell_failure_retry_witness :
    shellOnFailure 5 "primary" "primary" (some "10") =
      FailureAction.RetryCmd ["multipass", "launch", "--name", "primary", "--timeout", "10"] ∧
    shellOnFailure 10 "foo" "primary" none =
      FailureAction.RetryCmd ["multipass", "start", "foo"] ∧
    shellOnFailure 3 "foo" "primary" none = FailureAction.StandardHandler ∧
    shellDispatchLoop (fun i => if i < 2 then RC.Retry else RC.Ok) 0 5 = RC.Ok :=
  ⟨(shell_failure_retry 5 "primary" "primary" (some "10")).1 rfl rfl,
    (shell_failure_retry 10 "foo" "primary" none).2.1 rfl,
    (shell_failure_retry 3 "foo" "primary" none).2.2.1 (Or.inl (by decide)) (by decide),
    (shell_failure_retry 0 "" "" none).2.2.2.2.2
      (fun i => if i < 2 then RC.Retry else RC.Ok) 2 5 (by decide) (by decide) (by decide)⟩

/-! Workflow image scheme, translated from `fetch_workflow_for` (image section) -/

/-- Query types of `Query::Type`. -/
inductive QueryType where
  | Alias
  | HttpDownload
  | LocalDir
  deriving DecidableEq, Repr

/-- An image query as built by `fetch_workflow_for`:
`{name, release, persistent, remote_name, type}`. -/
structure Query where
  name : String
  release : String
  persistent : Bool
  remote_name : String
  query_type : QueryType
  deriving DecidableEq, Repr

/-- Modelled from the spec: `mp::utils::split` of the image string on ":"
(the utility itself is not part of this corpus; the claim and the code use it
as a plain split on the colon character, empty tokens included). -/
def splitCharAux (c : Char) : List Char → List Char → List String
  | [], acc => [String.mk acc.reverse]
  | d :: rest, acc =>
    if d = c then String.mk acc.reverse :: splitCharAux c rest []
    else splitCharAux c rest (d :: acc)

/-- Split a string on the colon character. -/
def splitColon (s : String) : List String :=
  splitCharAux ':' s.data []

/-- The image section of `fetch_workflow_for`: with an `image` field, exactly
two tokens set the remote and the release, exactly one sets the release, any
other count raises `InvalidWorkflowException`; without an `image` field the
initial query (empty release, Alias type) is returned. -/
def parseImageQuery (image : Option String) : Except WorkflowError Query :=
  match image with
  | none => Except.ok ⟨"", "", false, "", QueryType.Alias⟩
  | some s =>
    match splitColon s with
    | [a, b] => Except.ok ⟨"", b, false, a, QueryType.Alias⟩
    | [a] => Except.ok ⟨"", a, false, "", QueryType.Alias⟩
    | _ => Except.error (WorkflowError.InvalidWorkflow "Unsupported image scheme in Workflow")

/-- C10: the image string of a workflow is split on the colon by
fetch_workflow_for: exactly two tokens set the remote and release of the query, exactly one
token sets only the release, any other token count raises
`InvalidWorkflowException` ("Unsupported image scheme in Workflow"); with no
image field the query keeps an empty release of Alias type. -/
theorem workflow_image_scheme (s a b : String) :
    (splitColon s = [a, b] →
      parseImageQuery (some s) = Except.ok ⟨"", b, false, a, QueryType.Alias⟩) ∧
    (splitColon s = [a] →
      parseImageQuery (some s) = Except.ok ⟨"", a, false, "", QueryType.Alias⟩) ∧
    ((splitColon s).length ≠ 1 → (splitColon s).length ≠ 2 →
      parseImageQuery (some s) =
        Except.error (WorkflowError.InvalidWorkflow "Unsupported image scheme in Workflow")) ∧
    parseImageQuery none = Except.ok ⟨"", "", false, "", QueryType.Alias⟩ := by
  refine ⟨?_, ?_, ?_, rfl⟩
  · intro h
    simp only [parseImageQuery]
    rw [h]
  · intro h
    simp only [parseImageQuery]
    rw [h]
  · intro h1 h2
    simp only [parseImageQuery]
    cases hl : splitColon s with
    | nil => rfl
    | cons x xs =>
      cases xs with
      | nil =>
        exact absurd (by rw [hl]; rfl) h1
      | cons y ys =>
        cases ys with
        | nil =>
          exact absurd (by rw [hl]; rfl) h2
        | cons z zs =>
          rfl

theorem workflow_image_scheme_witness :
    parseImageQuery (some "release:focal") =
      Except.ok ⟨"", "focal", false, "release", QueryType.Alias⟩ ∧
    parseImageQuery (some "bionic") =
      Except.ok ⟨"", "bionic", false, "", QueryType.Alias⟩ ∧
    parseImageQuery (some "a:b:c") =
      Except.error (WorkflowError.InvalidWorkflow "Unsupported image scheme in Workflow") :=
  ⟨(workflow_image_scheme "release:focal" "release" "focal").1 (by decide),
    (workflow_image_scheme "bionic" "bionic" "").2.1 (by decide),
    (workflow_image_scheme "a:b:c" "" "").2.2.1 (by decide) (by decide)⟩
